import Mathlib

/-!
Shallow embedding of `src/Search.jsx` (patent-analytics-mvp): the filter-to-query
translation, pagination arithmetic, search session state updates, the chunked
bulk-export engine and the CSV codec, together with theorems checking the
specification's claims against the code.
-/

namespace Search

/-! ## Filter state (the four filter `useState` hooks, lines 50-53) -/

structure Filter where
  query : String
  assignee : String
  fromDate : String
  toDate : String
deriving DecidableEq, Repr

/-! ## QueryDescription: the supabase query built by `buildFilteredQuery`
(lines 112-135).  Each field records one constraint of the builder chain. -/

structure QueryDescription where
  table : String
  selectCols : String
  countExact : Bool
  orderCol : String
  orderAscending : Bool
  orFilter : Option String
  assigneeEq : Option String
  filingDateGte : Option String
  filingDateLte : Option String
  range : Option (Nat × Nat)
deriving DecidableEq, Repr

/-- JS `String.prototype.trim`: strip whitespace from both ends (written on
the character-list view so it evaluates inside the kernel). -/
def jsTrim (s : String) : String :=
  String.mk (((s.data.dropWhile Char.isWhitespace).reverse.dropWhile Char.isWhitespace).reverse)

/-- `buildFilteredQuery({countMode})`, lines 112-135: trims the keyword, adds the
OR ilike constraint when the trimmed keyword has length ≥ 2, and the
assignee/fromDate/toDate constraints when those fields are non-empty
(JS truthiness of a string = non-empty). -/
def buildFilteredQuery (f : Filter) (countMode : Bool) : QueryDescription :=
  let kw := jsTrim f.query
  { table := "patents"
    selectCols := "id, patent_number, title, abstract, assignee, filing_date"
    countExact := countMode
    orderCol := "filing_date"
    orderAscending := false
    orFilter :=
      if 2 ≤ kw.length then
        some ("title.ilike.%" ++ kw ++ "%,abstract.ilike.%" ++ kw ++ "%,assignee.ilike.%" ++ kw ++ "%")
      else none
    assigneeEq := if f.assignee = "" then none else some f.assignee
    filingDateGte := if f.fromDate = "" then none else some f.fromDate
    filingDateLte := if f.toDate = "" then none else some f.toDate
    range := none }

/-- `.range(from, to)` applied to a built query. -/
def withRange (q : QueryDescription) (lo hi : Nat) : QueryDescription :=
  { q with range := some (lo, hi) }

/-! ## CSV codec (`toCSV`, lines 17-32)

A JS record is modelled as an association list in key order; a value is
`none` for `null` (and a missing key simply has no entry, so property access
also yields `none`). -/

abbrev CsvRow := List (String × Option String)

/-- JS property access `r[h]`: `none` when the key is absent (undefined) or its
value is null. -/
def jsGet (r : CsvRow) (h : String) : Option String :=
  (r.find? (fun p => p.1 == h)).bind (fun p => p.2)

/-- `String.prototype.replaceAll` with a one-character search string, on the
character-list view of the string. -/
def replAllChar (pat : Char) (rep : List Char) (s : List Char) : List Char :=
  s.flatMap (fun c => if c = pat then rep else [c])

/-- The `escape` chain of line 20-26 on a non-null value:
`.replaceAll('"','""').replaceAll('\n',' ').replaceAll('\r',' ')`. -/
def escapeChars (s : List Char) : List Char :=
  replAllChar '\r' [' '] (replAllChar '\n' [' '] (replAllChar '"' ['"', '"'] s))

/-- `escape` of lines 20-26: the empty string for null/undefined, otherwise the
replaceAll chain. -/
def escape (v : Option String) : String :=
  match v with
  | none => ""
  | some s => String.mk (escapeChars s.data)

/-- One CSV field of line 29: the escaped value wrapped in double quotes. -/
def csvField (r : CsvRow) (h : String) : String :=
  "\"" ++ escape (jsGet r h) ++ "\""

/-- `toCSV(rows)`, lines 17-32: empty input gives the empty string; otherwise
the header line is the first record's keys joined by commas, each record
contributes one line of quoted escaped fields, and all lines are joined by a
single newline. -/
def toCSV (rows : List CsvRow) : String :=
  match rows with
  | [] => ""
  | r0 :: _ =>
    let headers := r0.map Prod.fst
    String.intercalate "\n"
      (String.intercalate "," headers ::
        rows.map (fun r => String.intercalate "," (headers.map (csvField r))))

/-! ### Reference CSV encoder, written from the specification's words
(spec §4.5), to be compared with `toCSV`. -/

/-- Modelled from the spec: per-character escaping — every `"` doubled, every
line-break character replaced by a single space. -/
def escapeSpecChar (c : Char) : List Char :=
  if c = '"' then ['"', '"']
  else if c = '\n' ∨ c = '\r' then [' ']
  else [c]

/-- Modelled from the spec: a null/absent value is the empty string; otherwise
the per-character escape applied across the value. -/
def escapeSpec (v : Option String) : String :=
  match v with
  | none => ""
  | some s => String.mk (s.data.flatMap escapeSpecChar)

/-- Modelled from the spec: one field — the escaped value wrapped in double
quotes. -/
def csvFieldSpec (r : CsvRow) (h : String) : String :=
  "\"" ++ escapeSpec (jsGet r h) ++ "\""

/-- Modelled from the spec (§4.5): empty input → empty text; header row = keys
of the first record joined by commas unquoted; each record contributes one row
of quoted escaped fields joined by commas; rows joined by newline. -/
def encodeSpec (rows : List CsvRow) : String :=
  match rows with
  | [] => ""
  | r0 :: _ =>
    let headers := r0.map Prod.fst
    String.intercalate "\n"
      (String.intercalate "," headers ::
        rows.map (fun r => String.intercalate "," (headers.map (csvFieldSpec r))))

/-! ## Records and flattening for export (lines 192-198 and 230-238) -/

/-- A row returned by the remote query service (nullable columns). -/
structure SourceRec where
  id : Option String
  patent_number : Option String
  title : Option String
  abstract : Option String
  assignee : Option String
  filing_date : Option String
deriving DecidableEq, Repr

/-- JS `v || ''` on a nullable string: empty string for null, and an empty
string stays empty. -/
def orEmpty (v : Option String) : String :=
  match v with
  | none => ""
  | some s => s

/-- The flattening of lines 230-238 (same shape as lines 192-198): keep
id/patent_number/title, default assignee and filing_date to the empty
string. -/
def cleanRec (r : SourceRec) : CsvRow :=
  [("id", r.id), ("patent_number", r.patent_number), ("title", r.title),
   ("assignee", some (orEmpty r.assignee)), ("filing_date", some (orEmpty r.filing_date))]

/-! ## Pagination arithmetic (lines 46, 102-104) -/

def PAGE_SIZE : Nat := 10

/-- `Math.max(1, Math.ceil(totalCount / PAGE_SIZE))`, line 102. -/
def totalPages (totalCount : Nat) : Nat :=
  max 1 ((totalCount + PAGE_SIZE - 1) / PAGE_SIZE)

/-- `canPrev = page > 1`, line 103. -/
def canPrev (page : Nat) : Bool :=
  decide (1 < page)

/-- `canNext = page < totalPages`, line 104. -/
def canNext (page totalCount : Nat) : Bool :=
  decide (page < totalPages totalCount)

/-! ## Search session (lines 138-187, 343-358)

The component state touched by `runSearch`/`handleSubmit`.  A remote fetch
outcome is `Except.error ()` when supabase returned an error, otherwise the
(nullable) data list and the optional exact count. -/

structure SessionState where
  results : List SourceRec
  page : Nat
  totalCount : Nat
  err : Option String
  loading : Bool
deriving DecidableEq, Repr

abbrev FetchOutcome := Except Unit (Option (List SourceRec) × Option Nat)

/-- The query issued by `runSearch(targetPage)`: countMode on, range
`[(targetPage-1)*PAGE_SIZE, (targetPage-1)*PAGE_SIZE + PAGE_SIZE - 1]`
(lines 143-148). -/
def searchQuery (f : Filter) (targetPage : Nat) : QueryDescription :=
  withRange (buildFilteredQuery f true)
    ((targetPage - 1) * PAGE_SIZE) ((targetPage - 1) * PAGE_SIZE + PAGE_SIZE - 1)

/-- `runSearch(targetPage)`, lines 138-164, given the fetch outcome: on
success set results to `data || []`, totalCount to `count ?? 0` and page to the
target; on error set the error message and clear results and totalCount,
leaving page untouched.  `loading` ends false either way (the `finally`). -/
def runSearch (targetPage : Nat) (outcome : FetchOutcome) (st : SessionState) :
    SessionState :=
  match outcome with
  | Except.ok (data, count) =>
    { st with err := none, loading := false,
              results := data.getD [], totalCount := count.getD 0, page := targetPage }
  | Except.error _ =>
    { st with err := some "Search failed. Please try again.", loading := false,
              results := [], totalCount := 0 }

/-- `handleSubmit`, lines 177-187: when the trimmed keyword is shorter than 2
characters and no other filter field is set, clear results and totalCount and
return without fetching; otherwise run the page-1 search.  The second
component lists the queries fetched. -/
def handleSubmit (f : Filter) (st : SessionState) (outcome : FetchOutcome) :
    SessionState × List QueryDescription :=
  if (jsTrim f.query).length < 2 ∧ f.assignee = "" ∧ f.fromDate = "" ∧ f.toDate = "" then
    ({ st with results := [], totalCount := 0 }, [])
  else
    (runSearch 1 outcome st, [searchQuery f 1])

/-- The Prev button (lines 345-347): `onClick={() => runSearch(page - 1)}`,
`disabled={!canPrev || loading}` — a disabled button never fires, so the click
fetches exactly when `canPrev && !loading`. -/
def clickPrev (f : Filter) (st : SessionState) (outcome : FetchOutcome) :
    SessionState × List QueryDescription :=
  if canPrev st.page && !st.loading then
    (runSearch (st.page - 1) outcome st, [searchQuery f (st.page - 1)])
  else
    (st, [])

/-- The Next button (lines 354-356): `onClick={() => runSearch(page + 1)}`,
`disabled={!canNext || loading}`. -/
def clickNext (f : Filter) (st : SessionState) (outcome : FetchOutcome) :
    SessionState × List QueryDescription :=
  if canNext st.page st.totalCount && !st.loading then
    (runSearch (st.page + 1) outcome st, [searchQuery f (st.page + 1)])
  else
    (st, [])

/-! ## Bulk export engine (`exportAll`, lines 203-248) -/

/-- `pages = Math.ceil(count / pageSize)` with `pageSize = 1000` (lines
217-218). -/
def pagesFor (c : Nat) : Nat := (c + 999) / 1000

/-- The chunk range of lines 223-224: `from = i*pageSize`,
`to = Math.min(from + pageSize - 1, count - 1)`. -/
def chunkRange (c i : Nat) : Nat × Nat :=
  (i * 1000, min (i * 1000 + 1000 - 1) (c - 1))

/-- All chunk ranges of one export with count `c`. -/
def chunkRanges (c : Nat) : List (Nat × Nat) :=
  (List.range (pagesFor c)).map (chunkRange c)

/-- The chunk loop of lines 221-239, given an oracle for each chunk fetch's
outcome: fetch chunks sequentially, recording each issued range; stop at the
first error (the `throw`), otherwise accumulate the flattened rows. -/
def chunkLoop (chunkData : Nat → Except Unit (Option (List SourceRec))) (c : Nat) :
    Nat → Nat → List CsvRow → List (Nat × Nat) →
      List (Nat × Nat) × Except Unit (List CsvRow)
  | 0, _, acc, issued => (issued, Except.ok acc)
  | fuel + 1, i, acc, issued =>
    let rg := chunkRange c i
    match chunkData i with
    | Except.error e => (issued ++ [rg], Except.error e)
    | Except.ok data =>
      chunkLoop chunkData c fuel (i + 1) (acc ++ (data.getD []).map cleanRec) (issued ++ [rg])

/-- Observable outcome of one `exportAll` run: the file handed to the
file-save collaborator (filename and CSV text), the number of `alert` calls,
and the ranges of the chunk fetches issued. -/
structure ExportOutcome where
  saved : Option (String × String)
  alerts : Nat
  chunkRangesIssued : List (Nat × Nat)
deriving DecidableEq, Repr

/-- `exportAll`, lines 203-248, given the count fetch's outcome and a chunk
fetch oracle.  A count error is caught and alerted; a missing or zero count
downloads an empty CSV and stops before any chunk fetch; otherwise the chunk
loop runs and either every accumulated row is encoded and downloaded or the
first failure is caught and alerted with no download. -/
def exportAll (countResult : Except Unit (Option Nat))
    (chunkData : Nat → Except Unit (Option (List SourceRec))) : ExportOutcome :=
  match countResult with
  | Except.error _ => ⟨none, 1, []⟩
  | Except.ok countOpt =>
    match countOpt with
    | none => ⟨some ("patents_all_filtered.csv", toCSV []), 0, []⟩
    | some c =>
      if c = 0 then ⟨some ("patents_all_filtered.csv", toCSV []), 0, []⟩
      else
        match chunkLoop chunkData c (pagesFor c) 0 [] [] with
        | (issued, Except.error _) => ⟨none, 1, issued⟩
        | (issued, Except.ok all) =>
          ⟨some ("patents_all_filtered.csv", toCSV all), 0, issued⟩

/-! ## Filter snapshotting during an in-flight export (claim C1)

In the source, `exportAll` and `buildFilteredQuery` are closures of one render:
the `query`/`assignee`/`fromDate`/`toDate` constants they read were fixed when
that render ran, i.e. at the moment the export button was clicked.  A
`setQuery`/`setAssignee`/`setFromDate`/`setToDate` call made while the export
is awaiting a chunk only affects later renders, never those constants.  The
machine below interleaves UI filter mutations with the chunk fetches of one
export and makes the snapshot explicit. -/

inductive UIEvent where
  | setQuery (s : String)
  | setAssignee (s : String)
  | setFromDate (s : String)
  | setToDate (s : String)
  | chunkFetch
deriving DecidableEq, Repr

def UIEvent.isChunkFetch : UIEvent → Bool
  | UIEvent.chunkFetch => true
  | _ => false

/-- One in-flight export: the live UI filter state, the filter constants
captured by the running `exportAll` closure, the count returned by the probe,
the next chunk index and the chunk queries issued so far. -/
structure ExportFlight where
  uiFilter : Filter
  snapshot : Filter
  count : Nat
  chunkIdx : Nat
  issued : List QueryDescription
deriving DecidableEq, Repr

/-- Clicking the export button: the running closure captures the filter state
of the render that is current at the click. -/
def startExport (f : Filter) (c : Nat) : ExportFlight :=
  { uiFilter := f, snapshot := f, count := c, chunkIdx := 0, issued := [] }

/-- One interleaving step: a `set*` event mutates the live filter state only;
a `chunkFetch` event issues the next chunk query, which lines 221-225 build by
calling `buildFilteredQuery()` from the capturing render's scope — that is,
from the snapshot. -/
def exportStep (st : ExportFlight) (e : UIEvent) : ExportFlight :=
  match e with
  | UIEvent.setQuery s => { st with uiFilter := { st.uiFilter with query := s } }
  | UIEvent.setAssignee s => { st with uiFilter := { st.uiFilter with assignee := s } }
  | UIEvent.setFromDate s => { st with uiFilter := { st.uiFilter with fromDate := s } }
  | UIEvent.setToDate s => { st with uiFilter := { st.uiFilter with toDate := s } }
  | UIEvent.chunkFetch =>
    { st with
      issued := st.issued ++
        [withRange (buildFilteredQuery st.snapshot false)
          (chunkRange st.count st.chunkIdx).1 (chunkRange st.count st.chunkIdx).2]
      chunkIdx := st.chunkIdx + 1 }

/-! ## Helper lemmas -/

lemma escapeChars_cons (c : Char) (t : List Char) :
    escapeChars (c :: t) = escapeSpecChar c ++ escapeChars t := by
  unfold escapeChars replAllChar escapeSpecChar
  by_cases h1 : c = '"'
  · subst h1
    simp [List.flatMap_cons, List.flatMap_append]
  · by_cases h2 : c = '\n'
    · subst h2
      simp [List.flatMap_cons, List.flatMap_append]
    · by_cases h3 : c = '\r'
      · subst h3
        simp [List.flatMap_cons, List.flatMap_append]
      · simp [List.flatMap_cons, List.flatMap_append, h1, h2, h3]

lemma escapeChars_eq (s : List Char) : escapeChars s = s.flatMap escapeSpecChar := by
  induction s with
  | nil => rfl
  | cons c t ih => rw [List.flatMap_cons, ← ih, escapeChars_cons]

lemma escape_eq (v : Option String) : escape v = escapeSpec v := by
  cases v with
  | none => rfl
  | some s => simp [escape, escapeSpec, escapeChars_eq]

lemma csvField_eq (r : CsvRow) (h : String) : csvField r h = csvFieldSpec r h := by
  simp [csvField, csvFieldSpec, escape_eq]

lemma range_shift_map {α : Type} (g : Nat → α) (n m : Nat) :
    g n :: (List.range m).map (fun k => g (n + 1 + k)) =
      (List.range (m + 1)).map (fun k => g (n + k)) := by
  rw [List.range_succ_eq_map, List.map_cons, List.map_map]
  refine congrArg₂ List.cons (by rw [Nat.add_zero]) ?_
  refine List.map_congr_left ?_
  intro k _
  simp only [Function.comp_apply]
  congr 1
  omega

lemma chunkLoop_ok (cd : Nat → Except Unit (Option (List SourceRec))) (c : Nat) :
    ∀ fuel i acc issued,
      (∀ j, i ≤ j → j < i + fuel → ∃ d, cd j = Except.ok d) →
      ∃ l, chunkLoop cd c fuel i acc issued =
        (issued ++ (List.range fuel).map (fun k => chunkRange c (i + k)), Except.ok l) := by
  intro fuel
  induction fuel with
  | zero =>
    intro i acc issued _
    exact ⟨acc, by simp [chunkLoop]⟩
  | succ n ih =>
    intro i acc issued h
    obtain ⟨d, hd⟩ := h i le_rfl (by omega)
    obtain ⟨l, hl⟩ := ih (i + 1) (acc ++ (d.getD []).map cleanRec) (issued ++ [chunkRange c i])
      (fun j hj1 hj2 => h j (by omega) (by omega))
    refine ⟨l, ?_⟩
    rw [chunkLoop, hd]
    dsimp only
    rw [hl, List.append_assoc, List.singleton_append,
      range_shift_map (fun k => chunkRange c k) i n]

lemma chunkLoop_ok_inv (cd : Nat → Except Unit (Option (List SourceRec))) (c : Nat) :
    ∀ fuel i acc issued l,
      (chunkLoop cd c fuel i acc issued).2 = Except.ok l →
      ∀ j, i ≤ j → j < i + fuel → ∃ d, cd j = Except.ok d := by
  intro fuel
  induction fuel with
  | zero =>
    intro i acc issued l _ j hj1 hj2
    omega
  | succ n ih =>
    intro i acc issued l hok j hj1 hj2
    cases hd : cd i with
    | error e =>
      rw [chunkLoop, hd] at hok
      simp at hok
    | ok d =>
      rcases Nat.eq_or_lt_of_le hj1 with rfl | hlt
      · exact ⟨d, hd⟩
      · refine ih (i + 1) (acc ++ (d.getD []).map cleanRec) (issued ++ [chunkRange c i]) l ?_ j
          (by omega) (by omega)
        rw [chunkLoop, hd] at hok
        exact hok

lemma chunkRanges_tile_aux (c : Nat) (hc : 1 ≤ c) (j : Nat) (hj : j < c) :
    ∃! i, i < pagesFor c ∧ (chunkRange c i).1 ≤ j ∧ j ≤ (chunkRange c i).2 := by
  refine ⟨j / 1000, ⟨?_, ?_, ?_⟩, ?_⟩
  · unfold pagesFor
    omega
  · simp only [chunkRange]
    omega
  · simp only [chunkRange]
    omega
  · intro y hy
    obtain ⟨h1, h2, h3⟩ := hy
    simp only [chunkRange] at h2 h3
    omega

lemma chunkSizes_sum_aux (c : Nat) (hc : 1 ≤ c) :
    ∀ n, n ≤ pagesFor c →
      ((List.range n).map (fun i => (chunkRange c i).2 + 1 - (chunkRange c i).1)).sum =
        min (n * 1000) c := by
  intro n
  induction n with
  | zero => simp
  | succ m ih =>
    intro hn
    rw [List.range_succ, List.map_append, List.sum_append, ih (by omega)]
    simp only [List.map_cons, List.map_nil, List.sum_cons, List.sum_nil, chunkRange]
    unfold pagesFor at hn
    omega

lemma chunkRanges_sum_eq (c : Nat) (hc : 1 ≤ c) :
    ((chunkRanges c).map (fun p => p.2 + 1 - p.1)).sum = c := by
  unfold chunkRanges
  rw [List.map_map]
  have h := chunkSizes_sum_aux c hc (pagesFor c) le_rfl
  have hfun : ((fun p : Nat × Nat => p.2 + 1 - p.1) ∘ chunkRange c) =
      fun i => (chunkRange c i).2 + 1 - (chunkRange c i).1 := rfl
  rw [hfun, h]
  unfold pagesFor
  omega

lemma exportStep_foldl (evs : List UIEvent) :
    ∀ st : ExportFlight,
      (evs.foldl exportStep st).snapshot = st.snapshot ∧
      (evs.foldl exportStep st).count = st.count ∧
      (evs.foldl exportStep st).chunkIdx = st.chunkIdx + evs.countP UIEvent.isChunkFetch ∧
      (evs.foldl exportStep st).issued = st.issued ++
        (List.range (evs.countP UIEvent.isChunkFetch)).map
          (fun k => withRange (buildFilteredQuery st.snapshot false)
            (chunkRange st.count (st.chunkIdx + k)).1
            (chunkRange st.count (st.chunkIdx + k)).2) := by
  induction evs with
  | nil =>
    intro st
    simp
  | cons e t ih =>
    intro st
    rw [List.foldl_cons]
    obtain ⟨h1, h2, h3, h4⟩ := ih (exportStep st e)
    cases e with
    | setQuery s =>
      rw [List.countP_cons_of_neg _ _ (by simp [UIEvent.isChunkFetch])]
      simp only [exportStep] at h1 h2 h3 h4 ⊢
      exact ⟨h1, h2, h3, h4⟩
    | setAssignee s =>
      rw [List.countP_cons_of_neg _ _ (by simp [UIEvent.isChunkFetch])]
      simp only [exportStep] at h1 h2 h3 h4 ⊢
      exact ⟨h1, h2, h3, h4⟩
    | setFromDate s =>
      rw [List.countP_cons_of_neg _ _ (by simp [UIEvent.isChunkFetch])]
      simp only [exportStep] at h1 h2 h3 h4 ⊢
      exact ⟨h1, h2, h3, h4⟩
    | setToDate s =>
      rw [List.countP_cons_of_neg _ _ (by simp [UIEvent.isChunkFetch])]
      simp only [exportStep] at h1 h2 h3 h4 ⊢
      exact ⟨h1, h2, h3, h4⟩
    | chunkFetch =>
      rw [List.countP_cons_of_pos _ _ (by rfl)]
      simp only [exportStep] at h1 h2 h3 h4 ⊢
      refine ⟨h1, h2, by rw [h3]; omega, ?_⟩
      rw [h4]
      simp only [List.append_assoc, List.singleton_append]
      rw [range_shift_map
        (fun k => withRange (buildFilteredQuery st.snapshot false)
          (chunkRange st.count k).1 (chunkRange st.count k).2) st.chunkIdx
        (t.countP UIEvent.isChunkFetch)]

/-! ## Claim theorems -/

/-- C1: For every bulk export, the Filter snapshot used to build the
QueryDescription of every chunk fetch is fixed at the moment exportAll is
called: however UI filter-mutation events (keyword, assignee, fromDate,
toDate) interleave with the chunk fetches of the in-flight export, every chunk
query is built from the snapshot `f` taken at call time, with the ranges of
the source's chunk loop — the issued queries depend only on the snapshot, the
count, and the number of chunk fetches, never on the interleaved changes. -/
theorem export_snapshot_fixed (f : Filter) (c : Nat) (evs : List UIEvent) :
    (evs.foldl exportStep (startExport f c)).issued =
      (List.range (evs.countP UIEvent.isChunkFetch)).map
        (fun i => withRange (buildFilteredQuery f false)
          (chunkRange c i).1 (chunkRange c i).2) := by
  obtain ⟨h1, h2, h3, h4⟩ := exportStep_foldl evs (startExport f c)
  rw [h4]
  simp [startExport]

/-- C3: A page fetch (submit or goToPage both run `runSearch`) that returns an
error leaves `page` at its prior value and clears results to `[]` and
totalCount to `0`; `page` is set to the target page exactly on success. -/
theorem runSearch_error_keeps_page (st : SessionState) (targetPage : Nat) :
    (runSearch targetPage (Except.error ()) st).page = st.page ∧
    (runSearch targetPage (Except.error ()) st).results = [] ∧
    (runSearch targetPage (Except.error ()) st).totalCount = 0 ∧
    ∀ (data : Option (List SourceRec)) (count : Option Nat),
      (runSearch targetPage (Except.ok (data, count)) st).page = targetPage :=
  ⟨rfl, rfl, rfl, fun _ _ => rfl⟩

/-- C4: The CSV encoder `toCSV` equals the reference encoder written from the
spec's words (empty input → empty text; header = first record's keys joined by
commas unquoted; every field escaped by doubling `"` and replacing line breaks
by spaces, quoted, joined by commas; lines joined by a single newline). -/
theorem toCSV_eq_encodeSpec (rows : List CsvRow) : toCSV rows = encodeSpec rows := by
  have hfun : csvField = csvFieldSpec := funext fun r => funext fun h => csvField_eq r h
  cases rows with
  | nil => rfl
  | cons r0 rs => simp [toCSV, encodeSpec, hfun]

/-- C5: When the trimmed keyword is shorter than 2 characters and assignee,
fromDate and toDate are all empty, submit issues no remote fetch (the fetch
list is empty) and leaves the session with empty results and totalCount 0. -/
theorem handleSubmit_empty_filter (f : Filter) (st : SessionState) (outcome : FetchOutcome)
    (hkw : (jsTrim f.query).length < 2) (ha : f.assignee = "")
    (hf : f.fromDate = "") (ht : f.toDate = "") :
    handleSubmit f st outcome = ({ st with results := [], totalCount := 0 }, []) := by
  simp [handleSubmit, hkw, ha, hf, ht]

/-- Witness for C5 at the all-empty filter. -/
theorem handleSubmit_empty_filter_witness :
    (jsTrim "").length < 2 ∧
    handleSubmit ⟨"", "", "", ""⟩ ⟨[], 1, 0, none, false⟩ (Except.error ()) =
      (⟨[], 1, 0, none, false⟩, []) :=
  ⟨by decide, handleSubmit_empty_filter ⟨"", "", "", ""⟩ ⟨[], 1, 0, none, false⟩
    (Except.error ()) (by decide) rfl rfl rfl⟩

/-- C6 (counterexample): the claim as stated is false — at page 5 with
totalCount 10 (so totalPages = 1) the Prev target 4 fails the claim's bound
`n > totalPages()`, yet the Prev button is enabled (it checks only
`page > 1`), so the click issues a remote fetch and, on error, also changes
the state. -/
theorem goToPage_out_of_bounds_counterexample :
    totalPages 10 < (5 : Nat) - 1 ∧
    (clickPrev ⟨"ab", "", "", ""⟩ ⟨[], 5, 10, none, false⟩ (Except.error ())).2 ≠ [] ∧
    (clickPrev ⟨"ab", "", "", ""⟩ ⟨[], 5, 10, none, false⟩ (Except.error ())).1 ≠
      ⟨[], 5, 10, none, false⟩ :=
  ⟨by decide, by decide, by decide⟩

/-- C6 (amended): a goToPage whose target fails the bound its own button
checks is a no-op: the Prev button's target `page - 1 < 1` or the Next
button's target `page + 1 > totalPages` leaves the state unchanged and issues
no fetch (the buttons are the only goToPage call sites and are disabled
exactly then; a Prev target above totalPages is not guarded — see the
counterexample). -/
theorem goToPage_out_of_bounds_noop (f : Filter) (st : SessionState) (outcome : FetchOutcome) :
    (st.page - 1 < 1 → clickPrev f st outcome = (st, [])) ∧
    (totalPages st.totalCount < st.page + 1 → clickNext f st outcome = (st, [])) := by
  constructor
  · intro h
    have hc : canPrev st.page = false := by
      simp only [canPrev, decide_eq_false_iff_not]
      omega
    simp [clickPrev, hc]
  · intro h
    have hc : canNext st.page st.totalCount = false := by
      simp only [canNext, decide_eq_false_iff_not]
      omega
    simp [clickNext, hc]

/-- Witness for C6 at page 1 with totalCount 0. -/
theorem goToPage_out_of_bounds_noop_witness :
    ((1 : Nat) - 1 < 1 ∧ totalPages 0 < 1 + 1) ∧
    clickPrev ⟨"ab", "", "", ""⟩ ⟨[], 1, 0, none, false⟩ (Except.error ()) =
      (⟨[], 1, 0, none, false⟩, []) ∧
    clickNext ⟨"ab", "", "", ""⟩ ⟨[], 1, 0, none, false⟩ (Except.error ()) =
      (⟨[], 1, 0, none, false⟩, []) :=
  ⟨⟨by decide, by decide⟩,
    (goToPage_out_of_bounds_noop ⟨"ab", "", "", ""⟩ ⟨[], 1, 0, none, false⟩
      (Except.error ())).1 (by decide),
    (goToPage_out_of_bounds_noop ⟨"ab", "", "", ""⟩ ⟨[], 1, 0, none, false⟩
      (Except.error ())).2 (by decide)⟩

/-- C7: `totalPages = max 1 ⌈totalCount / 10⌉` (Mathlib's ceiling division),
`canPrev ↔ page > 1`, `canNext ↔ page < totalPages`; `totalCount = 0` gives
one page with both navigations false, `totalCount = 25` gives three pages with
canNext false and canPrev true at page 3. -/
theorem pagination_arithmetic :
    (∀ totalCount : Nat, totalPages totalCount = max 1 (totalCount ⌈/⌉ 10)) ∧
    (∀ page : Nat, canPrev page = true ↔ 1 < page) ∧
    (∀ page totalCount : Nat,
      canNext page totalCount = true ↔ page < totalPages totalCount) ∧
    totalPages 0 = 1 ∧ canPrev 1 = false ∧ canNext 1 0 = false ∧
    totalPages 25 = 3 ∧ canNext 3 25 = false ∧ canPrev 3 = true := by
  refine ⟨fun tc => rfl, fun p => by simp [canPrev], fun p tc => by simp [canNext],
    by decide, by decide, by decide, by decide, by decide, by decide⟩

/-- C8: If any chunk fetch of an export errors, the export aborts: nothing is
handed to the file-save collaborator (rows of earlier successful chunks are
discarded) and exactly one export-failed alert is raised. -/
theorem exportAll_chunk_error_aborts (c : Nat)
    (chunkData : Nat → Except Unit (Option (List SourceRec)))
    (hc : 1 ≤ c) (hbad : ∃ i, i < pagesFor c ∧ chunkData i = Except.error ()) :
    (exportAll (Except.ok (some c)) chunkData).saved = none ∧
    (exportAll (Except.ok (some c)) chunkData).alerts = 1 := by
  have hczero : ¬(c = 0) := by omega
  rcases hres : chunkLoop chunkData c (pagesFor c) 0 [] [] with ⟨issued, res⟩
  cases res with
  | error e =>
    constructor <;> simp [exportAll, hczero, hres]
  | ok l =>
    exfalso
    obtain ⟨i, hi, herr⟩ := hbad
    obtain ⟨d, hd⟩ := chunkLoop_ok_inv chunkData c (pagesFor c) 0 [] [] l
      (by rw [hres]) i (Nat.zero_le i) (by omega)
    rw [herr] at hd
    exact Except.noConfusion hd

/-- Witness for C8: count 1, single chunk fetch fails. -/
theorem exportAll_chunk_error_aborts_witness :
    (1 ≤ 1 ∧ (0 : Nat) < pagesFor 1) ∧
    (exportAll (Except.ok (some 1))
      (fun _ => (Except.error () : Except Unit (Option (List SourceRec))))).saved = none ∧
    (exportAll (Except.ok (some 1))
      (fun _ => (Except.error () : Except Unit (Option (List SourceRec))))).alerts = 1 :=
  ⟨⟨by decide, by decide⟩,
    exportAll_chunk_error_aborts 1 (fun _ => Except.error ()) (by decide)
      ⟨0, by decide, rfl⟩⟩

/-- C9: A count fetch returning no count or count 0 makes exportAll hand the
empty CSV to the file-save collaborator and stop with no chunk fetch and no
error signal. -/
theorem exportAll_zero_count (chunkData : Nat → Except Unit (Option (List SourceRec))) :
    exportAll (Except.ok none) chunkData =
      ⟨some ("patents_all_filtered.csv", ""), 0, []⟩ ∧
    exportAll (Except.ok (some 0)) chunkData =
      ⟨some ("patents_all_filtered.csv", ""), 0, []⟩ ∧
    toCSV [] = "" :=
  ⟨rfl, rfl, rfl⟩

/-- C10: A field whose value is null or whose key is absent from the record is
encoded as a quoted empty string (the two-character field `""`), and every
encoded row has exactly one field per header key, so encoding is total over
records with missing or null fields. -/
theorem csvField_missing_or_null (r : CsvRow) (h : String) (hnone : jsGet r h = none) :
    csvField r h = "\"\"" ∧
    ∀ headers : List String, (headers.map (csvField r)).length = headers.length := by
  constructor
  · unfold csvField
    rw [hnone]
    decide
  · intro headers
    exact List.length_map headers (csvField r)

/-- Witness for C10: the key `b` taken from a first record is absent from the
record `[("a", "x")]`. -/
theorem csvField_missing_or_null_witness :
    jsGet [("a", some "x")] "b" = none ∧
    (csvField [("a", some "x")] "b" = "\"\"" ∧
      ∀ headers : List String,
        (headers.map (csvField [("a", some "x")])).length = headers.length) :=
  ⟨by decide, csvField_missing_or_null [("a", some "x")] "b" (by decide)⟩

/-- C2 (counterexample): the claim as stated is false — with the count fetch
returning 1001 (so ceil(1001/1000) = 2) but the first chunk fetch failing,
exportAll issues exactly one chunk fetch, not two. -/
theorem export_chunk_count_counterexample :
    (exportAll (Except.ok (some 1001))
      (fun _ => (Except.error () : Except Unit (Option (List SourceRec))))).chunkRangesIssued.length = 1 ∧
    (1001 : Nat) ⌈/⌉ 1000 = 2 := by
  constructor
  · decide
  · decide

/-- C2 (amended): for every count c ≥ 1 returned by the initial count fetch,
provided every chunk fetch succeeds, exportAll issues exactly ceil(c/1000)
sequential chunk fetches, the i-th with zero-based inclusive range
`[i*1000, min((i+1)*1000 - 1, c - 1)]`; the ranges exactly tile `[0, c-1]`
(every position lies in exactly one chunk) and the total number of row
positions requested equals c. -/
theorem exportAll_chunks_tile (c : Nat)
    (chunkData : Nat → Except Unit (Option (List SourceRec)))
    (hc : 1 ≤ c) (hok : ∀ i, i < pagesFor c → ∃ d, chunkData i = Except.ok d) :
    (exportAll (Except.ok (some c)) chunkData).chunkRangesIssued = chunkRanges c ∧
    (chunkRanges c).length = c ⌈/⌉ 1000 ∧
    (∀ i, i < c ⌈/⌉ 1000 →
      chunkRange c i = (i * 1000, min ((i + 1) * 1000 - 1) (c - 1))) ∧
    (∀ j, j < c →
      ∃! i, i < pagesFor c ∧ (chunkRange c i).1 ≤ j ∧ j ≤ (chunkRange c i).2) ∧
    ((chunkRanges c).map (fun p => p.2 + 1 - p.1)).sum = c := by
  have hczero : ¬(c = 0) := by omega
  refine ⟨?_, ?_, ?_, fun j hj => chunkRanges_tile_aux c hc j hj, chunkRanges_sum_eq c hc⟩
  · obtain ⟨l, hl⟩ := chunkLoop_ok chunkData c (pagesFor c) 0 [] []
      (fun j hj1 hj2 => hok j (by omega))
    simp [exportAll, hczero, hl, chunkRanges]
  · simp [chunkRanges, pagesFor, Nat.ceilDiv_eq_add_pred_div]
  · intro i _
    have harg : i * 1000 + 1000 - 1 = (i + 1) * 1000 - 1 := by omega
    simp [chunkRange, harg]

/-- Witness for C2 (amended) at count 2500 with all chunk fetches succeeding. -/
theorem exportAll_chunks_tile_witness :
    (1 ≤ 2500 ∧ ∀ i : Nat, i < pagesFor 2500 →
      ∃ d, (Except.ok none : Except Unit (Option (List SourceRec))) = Except.ok d) ∧
    ((exportAll (Except.ok (some 2500))
        (fun _ => (Except.ok none : Except Unit (Option (List SourceRec))))).chunkRangesIssued =
        chunkRanges 2500 ∧
      (chunkRanges 2500).length = 2500 ⌈/⌉ 1000 ∧
      (∀ i, i < 2500 ⌈/⌉ 1000 →
        chunkRange 2500 i = (i * 1000, min ((i + 1) * 1000 - 1) (2500 - 1))) ∧
      (∀ j, j < 2500 →
        ∃! i, i < pagesFor 2500 ∧ (chunkRange 2500 i).1 ≤ j ∧ j ≤ (chunkRange 2500 i).2) ∧
      ((chunkRanges 2500).map (fun p => p.2 + 1 - p.1)).sum = 2500) :=
  ⟨⟨by decide, fun _ _ => ⟨none, rfl⟩⟩,
    exportAll_chunks_tile 2500 (fun _ => Except.ok none) (by decide)
      (fun _ _ => ⟨none, rfl⟩)⟩

end Search
